import Mathlib

/-!
Shallow embedding of the core logic of `src/main.py`, a single-user personal
finance dashboard: installment-expense generation (`add_despesa`, lines
105-136), the monthly aggregation (`get_dados_mensais`, lines 138-175), the
by-category aggregation (`receitas_cat` line 265 / `despesas_cat` line 275)
and the expense-form submission gate (lines 418-429).

Modelling conventions:
* money amounts are rationals; Python's `round(x, 2)` is modelled as rounding
  `x * 100` to the nearest integer and dividing by `100`;
* dates are integer day numbers, so `timedelta(days=d)` is `+ d`; the
  year-month of a loaded row is kept as two naturals `ano`/`mes`, and the
  `str(Period('M'))` rendering `"YYYY-MM"` is reconstructed digit by digit;
* the random identifiers `str(uuid.uuid4())[:8]` are parameters (`ids : ℕ →
  String` for the per-row ids, `grupo_id : String` for the group id);
* a row appended to the `Despesas` sheet keeps the exact column order of the
  source; a loaded row (`Registro`) is reduced to the fields the
  aggregations read (date's year and month, category, amount).
-/

/-- Python's `round(x, 2)` (idealised over `ℚ`): round `x * 100` to the
nearest integer and divide by `100`. -/
def round2 (x : ℚ) : ℚ := ((round (x * 100) : ℤ) : ℚ) / 100

/-- One row appended to the `Despesas` sheet by `add_despesa`, in the
source's column order:
`ID | Data | Categoria | Forma_Pagamento | Cartao | Valor | Parcelas |
Parcela_Atual | ID_Grupo_Parcelado | Descrição`. -/
structure DespRow where
  id : String
  data : ℤ
  categoria : String
  forma_pagamento : String
  cartao : String
  valor : ℚ
  parcelas : ℕ
  parcela_atual : ℕ
  grupo : String
  descricao : String
deriving DecidableEq

/-- The function `add_despesa(data, categoria, forma_pagamento, cartao,
valor_total, num_parcelas, descricao)` of `main.py` (lines 105-136).  The group id is
generated once before the loop and the per-row ids once per iteration; both
are parameters here.  The returned list is the sequence of rows appended to
the sheet, in loop order. -/
def add_despesa (ids : ℕ → String) (grupo_id : String) (data : ℤ)
    (categoria forma_pagamento cartao : String)
    (valor_total : ℚ) (num_parcelas : ℕ) (descricao : String) : List DespRow :=
  let valor_parcela := valor_total / num_parcelas
  (List.range num_parcelas).map fun i =>
    { id := ids i
      data := data + 30 * (i : ℤ)
      categoria := categoria
      forma_pagamento := forma_pagamento
      cartao := if cartao = "" then "" else cartao
      valor := round2 valor_parcela
      parcelas := num_parcelas
      parcela_atual := i + 1
      grupo := grupo_id
      descricao := descricao ++ " - Parcela " ++ toString (i + 1) ++ "/" ++
        toString num_parcelas }

lemma abs_round2_sub (x : ℚ) : |round2 x - x| ≤ 1 / 200 := by
  have h := abs_sub_round (x * 100)
  have e : round2 x - x = -((x * 100 - ((round (x * 100) : ℤ) : ℚ)) / 100) := by
    unfold round2; ring
  rw [e, abs_neg, abs_div, show |(100 : ℚ)| = 100 by norm_num]
  linarith

lemma add_despesa_length (ids : ℕ → String) (grupo_id : String) (data : ℤ)
    (categoria forma_pagamento cartao : String)
    (T : ℚ) (n : ℕ) (descricao : String) :
    (add_despesa ids grupo_id data categoria forma_pagamento cartao T n
        descricao).length = n := by
  simp [add_despesa]

lemma add_despesa_valores (ids : ℕ → String) (grupo_id : String) (data : ℤ)
    (categoria forma_pagamento cartao : String)
    (T : ℚ) (n : ℕ) (descricao : String) :
    (add_despesa ids grupo_id data categoria forma_pagamento cartao T n
        descricao).map (·.valor) = List.replicate n (round2 (T / n)) := by
  have h : ∀ b ∈ (add_despesa ids grupo_id data categoria forma_pagamento
      cartao T n descricao).map (·.valor), b = round2 (T / n) := by
    intro b hb
    simp only [add_despesa, List.map_map, List.mem_map, Function.comp] at hb
    obtain ⟨i, _, rfl⟩ := hb
    rfl
  rw [List.eq_replicate_of_mem h, List.length_map, add_despesa_length]

lemma add_despesa_indices (ids : ℕ → String) (grupo_id : String) (data : ℤ)
    (categoria forma_pagamento cartao : String)
    (T : ℚ) (n : ℕ) (descricao : String) :
    (add_despesa ids grupo_id data categoria forma_pagamento cartao T n
        descricao).map (·.parcela_atual) = List.range' 1 n := by
  simp only [add_despesa, List.map_map, Function.comp]
  rw [List.range'_eq_map_range]
  exact List.map_congr_left fun i _ => Nat.add_comm i 1

/-- C1: for a total `T > 0` and `n ≥ 1` installments, `add_despesa` produces
exactly `n` rows; their installment indices are exactly the sequence
`1..n` (in particular pairwise distinct); every row carries the group id and
the count `n`; and the sum of the stored amounts is within `n * 0.01`
of `T`. -/
theorem add_despesa_parcelas_spec (ids : ℕ → String) (grupo_id : String)
    (data : ℤ) (categoria forma_pagamento cartao : String)
    (T : ℚ) (n : ℕ) (descricao : String) (hn : 1 ≤ n) (hT : 0 < T) :
    (add_despesa ids grupo_id data categoria forma_pagamento cartao T n
        descricao).length = n ∧
    (add_despesa ids grupo_id data categoria forma_pagamento cartao T n
        descricao).map (·.parcela_atual) = List.range' 1 n ∧
    ((add_despesa ids grupo_id data categoria forma_pagamento cartao T n
        descricao).map (·.parcela_atual)).Nodup ∧
    (∀ r ∈ add_despesa ids grupo_id data categoria forma_pagamento cartao T n
        descricao, r.grupo = grupo_id ∧ r.parcelas = n) ∧
    |((add_despesa ids grupo_id data categoria forma_pagamento cartao T n
        descricao).map (·.valor)).sum - T| ≤ (n : ℚ) * (1 / 100) := by
  have hidx := add_despesa_indices ids grupo_id data categoria forma_pagamento
    cartao T n descricao
  refine ⟨add_despesa_length .., hidx, ?_, ?_, ?_⟩
  · rw [hidx]; exact List.nodup_range' ..
  · intro r hr
    simp only [add_despesa, List.mem_map] at hr
    obtain ⟨i, _, rfl⟩ := hr
    exact ⟨rfl, rfl⟩
  · rw [add_despesa_valores, List.sum_replicate, nsmul_eq_mul]
    have hn0 : (n : ℚ) ≠ 0 := Nat.cast_ne_zero.mpr (by omega)
    have e : (n : ℚ) * round2 (T / n) - T
        = (n : ℚ) * (round2 (T / n) - T / n) := by
      rw [mul_sub, mul_comm ((n : ℚ)) (T / n), div_mul_cancel₀ _ hn0]
    rw [e, abs_mul, abs_of_nonneg (by positivity : (0 : ℚ) ≤ (n : ℚ))]
    have hb := abs_round2_sub (T / n)
    have hnn : (0 : ℚ) ≤ (n : ℚ) := by positivity
    nlinarith

/-- C1 witness: the `100.00` split in `3` installments from the spec's
example. -/
theorem add_despesa_parcelas_spec_test :
    (1 ≤ 3 ∧ (0 : ℚ) < 100) ∧
    ((add_despesa (fun _ => "a") "g" 0 "Mercado" "PIX" "" 100 3 "d").length = 3 ∧
    (add_despesa (fun _ => "a") "g" 0 "Mercado" "PIX" "" 100 3 "d").map
        (·.parcela_atual) = List.range' 1 3 ∧
    ((add_despesa (fun _ => "a") "g" 0 "Mercado" "PIX" "" 100 3 "d").map
        (·.parcela_atual)).Nodup ∧
    (∀ r ∈ add_despesa (fun _ => "a") "g" 0 "Mercado" "PIX" "" 100 3 "d",
        r.grupo = "g" ∧ r.parcelas = 3) ∧
    |((add_despesa (fun _ => "a") "g" 0 "Mercado" "PIX" "" 100 3 "d").map
        (·.valor)).sum - 100| ≤ ((3 : ℕ) : ℚ) * (1 / 100)) :=
  ⟨⟨by decide, by norm_num⟩,
    add_despesa_parcelas_spec (fun _ => "a") "g" 0 "Mercado" "PIX" "" 100 3 "d"
      (by decide) (by norm_num)⟩

/-- C2: every generated installment row with index `i` (1-based) is dated
exactly `30 * (i - 1)` days after the submitted date — a fixed 30-day step,
not a calendar-month step. -/
theorem add_despesa_datas (ids : ℕ → String) (grupo_id : String) (data : ℤ)
    (categoria forma_pagamento cartao : String)
    (T : ℚ) (n : ℕ) (descricao : String) :
    ∀ r ∈ add_despesa ids grupo_id data categoria forma_pagamento cartao T n
        descricao,
      1 ≤ r.parcela_atual ∧ r.parcela_atual ≤ n ∧
      r.data = data + 30 * ((r.parcela_atual : ℤ) - 1) := by
  intro r hr
  simp only [add_despesa, List.mem_map, List.mem_range] at hr
  obtain ⟨i, hi, rfl⟩ := hr
  refine ⟨Nat.le_add_left 1 i, show i + 1 ≤ n by omega, ?_⟩
  show data + 30 * (i : ℤ) = data + 30 * (((i + 1 : ℕ) : ℤ) - 1)
  push_cast
  ring

/-- C3: every installment row of a group stores the same amount
`round(valor_total / num_parcelas, 2)`; in particular the last row stores
that same amount, so the rounding remainder is not absorbed anywhere. -/
theorem add_despesa_valor_uniforme (ids : ℕ → String) (grupo_id : String)
    (data : ℤ) (categoria forma_pagamento cartao : String)
    (T : ℚ) (n : ℕ) (descricao : String) (hn : 1 ≤ n) :
    (∀ r ∈ add_despesa ids grupo_id data categoria forma_pagamento cartao T n
        descricao, r.valor = round2 (T / n)) ∧
    (∀ r, (add_despesa ids grupo_id data categoria forma_pagamento cartao T n
        descricao).getLast? = some r → r.valor = round2 (T / n)) := by
  have hmem : ∀ r ∈ add_despesa ids grupo_id data categoria forma_pagamento
      cartao T n descricao, r.valor = round2 (T / n) := by
    intro r hr
    simp only [add_despesa, List.mem_map] at hr
    obtain ⟨i, _, rfl⟩ := hr
    rfl
  exact ⟨hmem, fun r hr => hmem r (List.mem_of_getLast?_eq_some hr)⟩

/-- C3 witness: `100.00` in `3` installments — every row stores
`round2 (100 / 3) = 33.33`. -/
theorem add_despesa_valor_uniforme_test :
    1 ≤ 3 ∧
    ((∀ r ∈ add_despesa (fun _ => "a") "g" 0 "Mercado" "PIX" "" 100 3 "d",
        r.valor = round2 ((100 : ℚ) / 3)) ∧
    (∀ r, (add_despesa (fun _ => "a") "g" 0 "Mercado" "PIX" "" 100 3
        "d").getLast? = some r → r.valor = round2 ((100 : ℚ) / 3))) :=
  ⟨by decide,
    add_despesa_valor_uniforme (fun _ => "a") "g" 0 "Mercado" "PIX" "" 100 3 "d"
      (by decide)⟩

/-- C9 fails as stated: with a single installment (`num_parcelas = 1`) the
stored description still carries the `" - Parcela 1/1"` suffix instead of
being stored unchanged. -/
theorem add_despesa_descricao_contraexemplo :
    (add_despesa (fun _ => "a") "g" 0 "Mercado" "PIX" "" 10 1 "compra").map
        (·.descricao) = ["compra - Parcela 1/1"] ∧
    ("compra - Parcela 1/1" : String) ≠ "compra" := by
  exact ⟨by decide, by decide⟩

/-- C9 amended: for every installment count `n ≥ 1` — including `n = 1` —
each generated row stores the user description suffixed with
`" - Parcela i/n"`; the suffix is unconditional. -/
theorem add_despesa_descricao (ids : ℕ → String) (grupo_id : String)
    (data : ℤ) (categoria forma_pagamento cartao : String)
    (T : ℚ) (n : ℕ) (descricao : String) (hn : 1 ≤ n) :
    ∀ r ∈ add_despesa ids grupo_id data categoria forma_pagamento cartao T n
        descricao,
      r.descricao = descricao ++ " - Parcela " ++ toString r.parcela_atual ++
        "/" ++ toString n := by
  intro r hr
  simp only [add_despesa, List.mem_map] at hr
  obtain ⟨i, _, rfl⟩ := hr
  rfl

/-- C9 (amended) witness: the single-installment case, evaluated. -/
theorem add_despesa_descricao_test :
    (1 ≤ 1 ∧
      (⟨"a", 0, "Mercado", "PIX", "", round2 ((10 : ℚ) / ((1 : ℕ) : ℚ)), 1, 1,
          "g", "compra - Parcela 1/1"⟩ : DespRow) ∈
        add_despesa (fun _ => "a") "g" 0 "Mercado" "PIX" "" 10 1 "compra") ∧
    (⟨"a", 0, "Mercado", "PIX", "", round2 ((10 : ℚ) / ((1 : ℕ) : ℚ)), 1, 1,
        "g", "compra - Parcela 1/1"⟩ : DespRow).descricao =
      "compra" ++ " - Parcela " ++
        toString (⟨"a", 0, "Mercado", "PIX", "",
          round2 ((10 : ℚ) / ((1 : ℕ) : ℚ)), 1, 1,
          "g", "compra - Parcela 1/1"⟩ : DespRow).parcela_atual ++ "/" ++
        toString 1 :=
  ⟨⟨by decide, List.Mem.head _⟩,
    add_despesa_descricao (fun _ => "a") "g" 0 "Mercado" "PIX" "" 10 1 "compra"
      (by decide) _ (List.Mem.head _)⟩

/-- C2 witness: the second of two installments is dated `30` days after the
submission date. -/
theorem add_despesa_datas_test :
    ((⟨"a", 30, "Mercado", "PIX", "", round2 ((10 : ℚ) / ((2 : ℕ) : ℚ)), 2, 2,
        "g", "d - Parcela 2/2"⟩ : DespRow) ∈
      add_despesa (fun _ => "a") "g" 0 "Mercado" "PIX" "" 10 2 "d") ∧
    (1 ≤ (⟨"a", 30, "Mercado", "PIX", "", round2 ((10 : ℚ) / ((2 : ℕ) : ℚ)),
        2, 2, "g", "d - Parcela 2/2"⟩ : DespRow).parcela_atual ∧
      (⟨"a", 30, "Mercado", "PIX", "", round2 ((10 : ℚ) / ((2 : ℕ) : ℚ)), 2, 2,
        "g", "d - Parcela 2/2"⟩ : DespRow).parcela_atual ≤ 2 ∧
      (⟨"a", 30, "Mercado", "PIX", "", round2 ((10 : ℚ) / ((2 : ℕ) : ℚ)), 2, 2,
        "g", "d - Parcela 2/2"⟩ : DespRow).data =
        0 + 30 * (((⟨"a", 30, "Mercado", "PIX", "",
          round2 ((10 : ℚ) / ((2 : ℕ) : ℚ)), 2,
          2, "g", "d - Parcela 2/2"⟩ : DespRow).parcela_atual : ℤ) - 1)) :=
  ⟨List.Mem.tail _ (List.Mem.head _),
    add_despesa_datas (fun _ => "a") "g" 0 "Mercado" "PIX" "" 10 2 "d" _
      (List.Mem.tail _ (List.Mem.head _))⟩

/-- The decimal digit character for `d < 10`. -/
def digitChar (d : ℕ) : Char := Char.ofNat (48 + d)

/-- Two-digit zero-padded decimal rendering (the `MM` part of `%Y-%m`). -/
def pad2 (n : ℕ) : List Char := [digitChar (n / 10 % 10), digitChar (n % 10)]

/-- Four-digit zero-padded decimal rendering (the `YYYY` part of `%Y-%m`). -/
def pad4 (n : ℕ) : List Char :=
  [digitChar (n / 1000 % 10), digitChar (n / 100 % 10),
   digitChar (n / 10 % 10), digitChar (n % 10)]

/-- A month key `ano * 100 + mes` rendered as pandas renders
`str(Period('M'))`: the string `"YYYY-MM"`. -/
def mesStr (k : ℕ) : String := (pad4 (k / 100) ++ '-' :: pad2 (k % 100)).asString

lemma digitChar_lt_digitChar :
    ∀ a < 10, ∀ b < 10, a < b → digitChar a < digitChar b := by decide

lemma digitChar_injOn :
    ∀ a < 10, ∀ b < 10, digitChar a = digitChar b → a = b := by decide

lemma lex_append_left (l : List Char) {r₁ r₂ : List Char}
    (h : List.Lex (· < ·) r₁ r₂) : List.Lex (· < ·) (l ++ r₁) (l ++ r₂) := by
  induction l with
  | nil => simpa
  | cons a l ih => exact List.Lex.cons ih

lemma lex_pad4 {x₁ x₂ : ℕ} (h₁ : x₁ < 10000) (h₂ : x₂ < 10000) (h : x₁ < x₂)
    (r₁ r₂ : List Char) :
    List.Lex (· < ·) (pad4 x₁ ++ r₁) (pad4 x₂ ++ r₂) := by
  simp only [pad4, List.cons_append, List.nil_append]
  rcases Nat.lt_trichotomy (x₁ / 1000 % 10) (x₂ / 1000 % 10) with hd | hd | hd
  · exact List.Lex.rel (digitChar_lt_digitChar _ (by omega) _ (by omega) hd)
  · rw [hd]
    apply List.Lex.cons
    rcases Nat.lt_trichotomy (x₁ / 100 % 10) (x₂ / 100 % 10) with hd2 | hd2 | hd2
    · exact List.Lex.rel (digitChar_lt_digitChar _ (by omega) _ (by omega) hd2)
    · rw [hd2]
      apply List.Lex.cons
      rcases Nat.lt_trichotomy (x₁ / 10 % 10) (x₂ / 10 % 10) with hd3 | hd3 | hd3
      · exact List.Lex.rel
          (digitChar_lt_digitChar _ (by omega) _ (by omega) hd3)
      · rw [hd3]
        apply List.Lex.cons
        rcases Nat.lt_trichotomy (x₁ % 10) (x₂ % 10) with hd4 | hd4 | hd4
        · exact List.Lex.rel
            (digitChar_lt_digitChar _ (by omega) _ (by omega) hd4)
        · omega
        · omega
      · omega
    · omega
  · omega

lemma lex_pad2 {x₁ x₂ : ℕ} (h₁ : x₁ < 100) (h₂ : x₂ < 100) (h : x₁ < x₂) :
    List.Lex (· < ·) (pad2 x₁) (pad2 x₂) := by
  simp only [pad2]
  rcases Nat.lt_trichotomy (x₁ / 10 % 10) (x₂ / 10 % 10) with hd | hd | hd
  · exact List.Lex.rel (digitChar_lt_digitChar _ (by omega) _ (by omega) hd)
  · rw [hd]
    apply List.Lex.cons
    rcases Nat.lt_trichotomy (x₁ % 10) (x₂ % 10) with hd2 | hd2 | hd2
    · exact List.Lex.rel (digitChar_lt_digitChar _ (by omega) _ (by omega) hd2)
    · omega
    · omega
  · omega

/-- Monotonicity of the `"YYYY-MM"` rendering: on month keys below `10^6`
the numeric (chronological) order agrees with the lexicographic string
order. -/
lemma mesStr_lt_mesStr {k₁ k₂ : ℕ} (h₁ : k₁ < 1000000) (h₂ : k₂ < 1000000)
    (h : k₁ < k₂) : mesStr k₁ < mesStr k₂ := by
  rw [String.lt_iff_toList_lt]
  unfold mesStr
  rw [List.toList_asString, List.toList_asString]
  show List.Lex (· < ·) _ _
  by_cases hq : k₁ / 100 = k₂ / 100
  · rw [hq]
    apply lex_append_left
    apply List.Lex.cons
    exact lex_pad2 (by omega) (by omega) (by omega)
  · exact lex_pad4 (by omega) (by omega) (by omega) _ _

lemma mesStr_injOn {k₁ k₂ : ℕ} (h₁ : k₁ < 1000000) (h₂ : k₂ < 1000000)
    (h : mesStr k₁ = mesStr k₂) : k₁ = k₂ := by
  unfold mesStr at h
  rw [List.asString_inj] at h
  simp only [pad4, pad2, List.cons_append, List.nil_append, List.cons.injEq,
    and_true] at h
  obtain ⟨e₁, e₂, e₃, e₄, _, e₅, e₆⟩ := h
  have g₁ := digitChar_injOn _ (by omega) _ (by omega) e₁
  have g₂ := digitChar_injOn _ (by omega) _ (by omega) e₂
  have g₃ := digitChar_injOn _ (by omega) _ (by omega) e₃
  have g₄ := digitChar_injOn _ (by omega) _ (by omega) e₄
  have g₅ := digitChar_injOn _ (by omega) _ (by omega) e₅
  have g₆ := digitChar_injOn _ (by omega) _ (by omega) e₆
  omega

/-- A loaded row of the `Receitas` / `Despesas` sheet, reduced to the
fields the dashboard aggregations read: the parsed date's year and month
(`df['Data'].dt.to_period('M')`), the category and the amount. -/
structure Registro where
  ano : ℕ
  mes : ℕ
  categoria : String
  valor : ℚ
deriving DecidableEq

/-- The `Period('M')` grouping key of a row, encoded as `ano * 100 + mes`
(chronologically ordered for `mes < 100`). -/
def mesKey (r : Registro) : ℕ := r.ano * 100 + r.mes

/-- A row whose date a `pd.Timestamp` can actually carry (years 1677-2262,
months 1-12); we only need a four-digit year and a real month. -/
def registroValido (r : Registro) : Prop :=
  1 ≤ r.mes ∧ r.mes ≤ 12 ∧ 1000 ≤ r.ano ∧ r.ano ≤ 9999

instance (r : Registro) : Decidable (registroValido r) := by
  unfold registroValido
  infer_instance

lemma mesKey_lt (r : Registro) (h : registroValido r) : mesKey r < 1000000 := by
  unfold registroValido at h
  unfold mesKey
  omega

/-- Per-month amount total of one table: `groupby('Mes')['Valor'].sum()`
evaluated at one key (months with no rows sum to `0`, which is what the
`fillna(0)` left-join produces). -/
def somaMes (l : List Registro) (k : ℕ) : ℚ :=
  ((l.filter fun r => mesKey r == k).map (·.valor)).sum

/-- The function `get_dados_mensais()` of `main.py` (lines 138-175): group both tables by
year-month, sum `Valor` per month, align the two sums over the union of the
months (missing side filled with `0`), compute `Saldo`, render the month key
as a string.  The row order is the sorted month order of the pandas index. -/
def get_dados_mensais (receitas despesas : List Registro) :
    List (String × ℚ × ℚ × ℚ) :=
  (List.insertionSort (· ≤ ·)
      ((receitas.map mesKey ++ despesas.map mesKey).dedup)).map
    fun k => (mesStr k, somaMes receitas k, somaMes despesas k,
      somaMes receitas k - somaMes despesas k)

lemma mem_keys_lt {receitas despesas : List Registro}
    (hval : ∀ r ∈ receitas ++ despesas, registroValido r) {k : ℕ}
    (hk : k ∈ receitas.map mesKey ++ despesas.map mesKey) : k < 1000000 := by
  rw [List.mem_append] at hk
  rcases hk with hk | hk <;> rw [List.mem_map] at hk <;>
    obtain ⟨r, hr, rfl⟩ := hk
  · exact mesKey_lt r (hval r (List.mem_append.mpr (Or.inl hr)))
  · exact mesKey_lt r (hval r (List.mem_append.mpr (Or.inr hr)))

/-- C4: the monthly-totals table has, for every month `m` occurring in the
input, exactly the row `(m, A, B, A - B)` where `A`/`B` are the month's
income/expense sums (a side with no rows contributing `0`); and with both
inputs empty the result is empty. -/
theorem get_dados_mensais_row (receitas despesas : List Registro) (k : ℕ)
    (hk : k ∈ receitas.map mesKey ++ despesas.map mesKey)
    (hval : ∀ r ∈ receitas ++ despesas, registroValido r) :
    get_dados_mensais [] [] = [] ∧
    (mesStr k, somaMes receitas k, somaMes despesas k,
        somaMes receitas k - somaMes despesas k) ∈
      get_dados_mensais receitas despesas ∧
    ∀ p ∈ get_dados_mensais receitas despesas, p.1 = mesStr k →
      p = (mesStr k, somaMes receitas k, somaMes despesas k,
        somaMes receitas k - somaMes despesas k) := by
  refine ⟨rfl, ?_, ?_⟩
  · unfold get_dados_mensais
    exact List.mem_map.mpr
      ⟨k, (List.mem_insertionSort _).mpr (List.mem_dedup.mpr hk), rfl⟩
  · intro p hp hp1
    unfold get_dados_mensais at hp
    rw [List.mem_map] at hp
    obtain ⟨k', hk', rfl⟩ := hp
    rw [List.mem_insertionSort, List.mem_dedup] at hk'
    have e : k' = k :=
      mesStr_injOn (mem_keys_lt hval hk') (mem_keys_lt hval hk) hp1
    rw [e]

/-- C4 witness: the spec's example — one income of `1000` in `2024-01`,
expenses of `400` in `2024-01` and `100` in `2024-02`. -/
theorem get_dados_mensais_row_test :
    (202401 ∈ ([⟨2024, 1, "Salário", 1000⟩] : List Registro).map mesKey ++
        ([⟨2024, 1, "Mercado", 400⟩, ⟨2024, 2, "Mercado", 100⟩] :
          List Registro).map mesKey ∧
      ∀ r ∈ ([⟨2024, 1, "Salário", 1000⟩] : List Registro) ++
          ([⟨2024, 1, "Mercado", 400⟩, ⟨2024, 2, "Mercado", 100⟩] :
            List Registro), registroValido r) ∧
    (get_dados_mensais [] [] = [] ∧
    (mesStr 202401,
        somaMes [⟨2024, 1, "Salário", 1000⟩] 202401,
        somaMes [⟨2024, 1, "Mercado", 400⟩, ⟨2024, 2, "Mercado", 100⟩] 202401,
        somaMes [⟨2024, 1, "Salário", 1000⟩] 202401 -
          somaMes [⟨2024, 1, "Mercado", 400⟩, ⟨2024, 2, "Mercado", 100⟩]
            202401) ∈
      get_dados_mensais [⟨2024, 1, "Salário", 1000⟩]
        [⟨2024, 1, "Mercado", 400⟩, ⟨2024, 2, "Mercado", 100⟩] ∧
    ∀ p ∈ get_dados_mensais [⟨2024, 1, "Salário", 1000⟩]
        [⟨2024, 1, "Mercado", 400⟩, ⟨2024, 2, "Mercado", 100⟩],
      p.1 = mesStr 202401 →
      p = (mesStr 202401,
        somaMes [⟨2024, 1, "Salário", 1000⟩] 202401,
        somaMes [⟨2024, 1, "Mercado", 400⟩, ⟨2024, 2, "Mercado", 100⟩] 202401,
        somaMes [⟨2024, 1, "Salário", 1000⟩] 202401 -
          somaMes [⟨2024, 1, "Mercado", 400⟩, ⟨2024, 2, "Mercado", 100⟩]
            202401)) :=
  ⟨⟨by decide, by decide⟩,
    get_dados_mensais_row [⟨2024, 1, "Salário", 1000⟩]
      [⟨2024, 1, "Mercado", 400⟩, ⟨2024, 2, "Mercado", 100⟩] 202401
      (by decide) (by decide)⟩

/-- C5: the monthly-totals rows are strictly ascending in their month
column, in the lexicographic order of the `"YYYY-MM"` strings. -/
theorem get_dados_mensais_ordenado (receitas despesas : List Registro)
    (hval : ∀ r ∈ receitas ++ despesas, registroValido r) :
    ((get_dados_mensais receitas despesas).map (·.1)).Pairwise (· < ·) := by
  unfold get_dados_mensais
  rw [List.map_map, List.pairwise_map]
  have hsorted : (List.insertionSort (· ≤ ·)
      ((receitas.map mesKey ++ despesas.map mesKey).dedup)).Pairwise
      (· < · : ℕ → ℕ → Prop) :=
    List.Sorted.lt_of_le (List.sorted_insertionSort _ _)
      ((List.perm_insertionSort _ _).nodup_iff.mpr (List.nodup_dedup _))
  refine List.Pairwise.imp_of_mem ?_ hsorted
  intro a b ha hb hab
  rw [List.mem_insertionSort, List.mem_dedup] at ha hb
  exact mesStr_lt_mesStr (mem_keys_lt hval ha) (mem_keys_lt hval hb) hab

/-- C5 witness: the spec's example tables, with months `2024-01` and
`2024-02`. -/
theorem get_dados_mensais_ordenado_test :
    (∀ r ∈ ([⟨2024, 1, "Salário", 1000⟩] : List Registro) ++
        ([⟨2024, 1, "Mercado", 400⟩, ⟨2024, 2, "Mercado", 100⟩] :
          List Registro), registroValido r) ∧
    ((get_dados_mensais [⟨2024, 1, "Salário", 1000⟩]
        [⟨2024, 1, "Mercado", 400⟩, ⟨2024, 2, "Mercado", 100⟩]).map
      (·.1)).Pairwise (· < ·) :=
  ⟨by decide,
    get_dados_mensais_ordenado [⟨2024, 1, "Salário", 1000⟩]
      [⟨2024, 1, "Mercado", 400⟩, ⟨2024, 2, "Mercado", 100⟩] (by decide)⟩

lemma sum_map_filter_not_add {α : Type} (p : α → Bool) (f : α → ℚ)
    (l : List α) :
    ((l.filter p).map f).sum + ((l.filter fun a => !(p a)).map f).sum
      = (l.map f).sum := by
  induction l with
  | nil => simp
  | cons a t ih =>
    cases hp : p a <;> simp [List.filter_cons, hp] <;> linarith [ih]

lemma filter_key_filter_ne {κ α : Type} [DecidableEq κ] (key : α → κ)
    (c k : κ) (hck : k ≠ c) (l : List α) :
    ((l.filter fun a => !(key a == c)).filter fun a => key a == k)
      = l.filter fun a => key a == k := by
  induction l with
  | nil => rfl
  | cons a t ih =>
    by_cases h : key a = c
    · have hck' : ¬(c = k) := fun e => hck e.symm
      simp [List.filter_cons, h, hck', ih]
    · simp [List.filter_cons, h, ih]

lemma sum_map_key_partition {κ α : Type} [DecidableEq κ] (key : α → κ)
    (f : α → ℚ) :
    ∀ (ks : List κ) (l : List α), ks.Nodup → (∀ a ∈ l, key a ∈ ks) →
      (ks.map fun c => ((l.filter fun a => key a == c).map f).sum).sum
        = (l.map f).sum := by
  intro ks
  induction ks with
  | nil =>
    intro l _ hcov
    cases l with
    | nil => simp
    | cons a t =>
      exact absurd (hcov a (List.mem_cons_self a t)) (List.not_mem_nil _)
  | cons c ks ih =>
    intro l hnd hcov
    rw [List.nodup_cons] at hnd
    rw [List.map_cons, List.sum_cons]
    have hcov' : ∀ a ∈ l.filter fun a => !(key a == c), key a ∈ ks := by
      intro a ha
      rw [List.mem_filter] at ha
      have h1 := hcov a ha.1
      have h2 : key a ≠ c := by
        intro e
        rw [e] at ha
        simp at ha
      rw [List.mem_cons] at h1
      exact h1.resolve_left h2
    have htail : (ks.map fun k =>
        ((l.filter fun a => key a == k).map f).sum).sum
        = (((l.filter fun a => !(key a == c)).map f)).sum := by
      rw [← ih (l.filter fun a => !(key a == c)) hnd.2 hcov']
      congr 1
      apply List.map_congr_left
      intro k hk
      rw [filter_key_filter_ne key c k (fun e => hnd.1 (e ▸ hk)) l]
    rw [htail, sum_map_filter_not_add]

/-- Lexicographic code-point comparison of char lists: the order in which
pandas sorts string group keys. -/
def leChars : List Char → List Char → Bool
  | [], _ => true
  | _ :: _, [] => false
  | a :: as, b :: bs =>
    if a < b then true else if b < a then false else leChars as bs

/-- The aggregation `df.groupby('Categoria')['Valor'].sum().reset_index()` for
`receitas_cat` (line 265) and `despesas_cat` (line 275): one
`(category, sum of Valor)` pair per distinct category of the input, keys in
pandas' sorted order. -/
def groupby_categoria_sum (l : List Registro) : List (String × ℚ) :=
  (List.insertionSort (fun c₁ c₂ => leChars c₁.data c₂.data = true)
      ((l.map (·.categoria)).dedup)).map
    fun c => (c, ((l.filter fun r => r.categoria == c).map (·.valor)).sum)

/-- C6: the by-category aggregation is total-preserving — the sum of the
per-category values equals the sum of all input amounts — and only
categories occurring in the input appear in the output. -/
theorem groupby_categoria_sum_total (l : List Registro) :
    ((groupby_categoria_sum l).map (·.2)).sum = (l.map (·.valor)).sum ∧
    ∀ c ∈ (groupby_categoria_sum l).map (·.1), c ∈ l.map (·.categoria) := by
  constructor
  · unfold groupby_categoria_sum
    rw [List.map_map]
    have hperm : List.Perm
        ((List.insertionSort (fun c₁ c₂ => leChars c₁.data c₂.data = true)
          ((l.map (·.categoria)).dedup)).map
          fun c => ((l.filter fun r => r.categoria == c).map (·.valor)).sum)
        (((l.map (·.categoria)).dedup).map
          fun c => ((l.filter fun r => r.categoria == c).map (·.valor)).sum) :=
      List.Perm.map _ (List.perm_insertionSort _ _)
    have hcomp : ((fun p => p.2) ∘ fun c =>
        ((c, ((l.filter fun r => r.categoria == c).map (·.valor)).sum) :
          String × ℚ))
        = fun c => ((l.filter fun r => r.categoria == c).map (·.valor)).sum :=
      rfl
    rw [hcomp, hperm.sum_eq]
    exact sum_map_key_partition (·.categoria) (·.valor)
      ((l.map (·.categoria)).dedup) l (List.nodup_dedup _)
      fun a ha => List.mem_dedup.mpr (List.mem_map_of_mem _ ha)
  · intro c hc
    unfold groupby_categoria_sum at hc
    rw [List.map_map, List.mem_map] at hc
    obtain ⟨c', hc', rfl⟩ := hc
    rw [List.mem_insertionSort, List.mem_dedup] at hc'
    exact hc'

/-- C6 witness: two categories, three rows. -/
theorem groupby_categoria_sum_total_test :
    ("Mercado" ∈ (groupby_categoria_sum
        [⟨2024, 1, "Mercado", 40⟩, ⟨2024, 1, "Luz", 60⟩,
         ⟨2024, 2, "Mercado", 10⟩]).map (·.1)) ∧
    ((groupby_categoria_sum
        [⟨2024, 1, "Mercado", 40⟩, ⟨2024, 1, "Luz", 60⟩,
         ⟨2024, 2, "Mercado", 10⟩]).map (·.2)).sum =
      (([⟨2024, 1, "Mercado", 40⟩, ⟨2024, 1, "Luz", 60⟩,
         ⟨2024, 2, "Mercado", 10⟩] : List Registro).map (·.valor)).sum ∧
    ("Mercado" : String) ∈ ([⟨2024, 1, "Mercado", 40⟩, ⟨2024, 1, "Luz", 60⟩,
         ⟨2024, 2, "Mercado", 10⟩] : List Registro).map (·.categoria) :=
  ⟨by decide,
    (groupby_categoria_sum_total
      [⟨2024, 1, "Mercado", 40⟩, ⟨2024, 1, "Luz", 60⟩,
       ⟨2024, 2, "Mercado", 10⟩]).1,
    (groupby_categoria_sum_total
      [⟨2024, 1, "Mercado", 40⟩, ⟨2024, 1, "Luz", 60⟩,
       ⟨2024, 2, "Mercado", 10⟩]).2 "Mercado" (by decide)⟩

/-- The expense-form submission gate (`main.py` lines 418-429).  Python
truthiness of a string is "non-empty"; `none` models "error message shown,
nothing appended", `some rows` models the call to `add_despesa` with the
rows it appends. -/
def form_despesa_submit (ids : ℕ → String) (grupo_id : String) (data : ℤ)
    (categoria forma_pagamento cartao : String) (valor_total : ℚ)
    (num_parcelas : ℕ) (descricao : String) : Option (List DespRow) :=
  if valor_total > 0 ∧ categoria ≠ "" ∧ forma_pagamento ≠ "" then
    if forma_pagamento = "Crédito" ∧ cartao = "" then none
    else some (add_despesa ids grupo_id data categoria forma_pagamento cartao
      valor_total num_parcelas descricao)
  else none

/-- C7: a submission with non-positive amount, or missing category, or
Credit payment without a card, is rejected and appends nothing; and
`add_despesa` runs only when the checks pass. -/
theorem form_despesa_validacao (ids : ℕ → String) (grupo_id : String)
    (data : ℤ) (categoria forma_pagamento cartao : String) (valor_total : ℚ)
    (num_parcelas : ℕ) (descricao : String) :
    ((valor_total ≤ 0 ∨ categoria = "" ∨
        (forma_pagamento = "Crédito" ∧ cartao = "")) →
      form_despesa_submit ids grupo_id data categoria forma_pagamento cartao
        valor_total num_parcelas descricao = none) ∧
    ∀ rows, form_despesa_submit ids grupo_id data categoria forma_pagamento
        cartao valor_total num_parcelas descricao = some rows →
      0 < valor_total ∧ categoria ≠ "" ∧
      ¬(forma_pagamento = "Crédito" ∧ cartao = "") ∧
      rows = add_despesa ids grupo_id data categoria forma_pagamento cartao
        valor_total num_parcelas descricao := by
  unfold form_despesa_submit
  split_ifs with h1 h2
  · refine ⟨fun _ => rfl, ?_⟩
    intro rows h
    exact absurd h (by simp)
  · refine ⟨?_, ?_⟩
    · intro hbad
      exfalso
      rcases hbad with hb | hb | hb
      · exact absurd h1.1 (not_lt.mpr hb)
      · exact h1.2.1 hb
      · exact h2 hb
    · intro rows h
      rw [Option.some.injEq] at h
      exact ⟨h1.1, h1.2.1, h2, h.symm⟩
  · refine ⟨fun _ => rfl, ?_⟩
    intro rows h
    exact absurd h (by simp)

/-- C7 witness: a Credit submission without a card is rejected; a PIX
submission with positive amount and a category goes through to
`add_despesa`. -/
theorem form_despesa_validacao_test :
    (((10 : ℚ) ≤ 0 ∨ "Outros" = "" ∨
        ("Crédito" = "Crédito" ∧ "" = "")) ∧
      form_despesa_submit (fun _ => "a") "g" 0 "Outros" "Crédito" "" 10 1 "d"
        = none) ∧
    (form_despesa_submit (fun _ => "a") "g" 0 "Outros" "PIX" "" 10 1 "d"
        = some (add_despesa (fun _ => "a") "g" 0 "Outros" "PIX" "" 10 1 "d") ∧
      (0 < (10 : ℚ) ∧ ("Outros" : String) ≠ "" ∧
        ¬(("PIX" : String) = "Crédito" ∧ ("" : String) = "") ∧
        add_despesa (fun _ => "a") "g" 0 "Outros" "PIX" "" 10 1 "d"
          = add_despesa (fun _ => "a") "g" 0 "Outros" "PIX" "" 10 1 "d")) :=
  ⟨⟨Or.inr (Or.inr ⟨rfl, rfl⟩),
    (form_despesa_validacao (fun _ => "a") "g" 0 "Outros" "Crédito" "" 10 1
      "d").1 (Or.inr (Or.inr ⟨rfl, rfl⟩))⟩,
    rfl,
    (form_despesa_validacao (fun _ => "a") "g" 0 "Outros" "PIX" "" 10 1
      "d").2 _ rfl⟩

/-- C8 fails as stated: a PIX expense submitted with a card selected stores
that card name on the created record — the stored card is not forced to the
empty string for non-Credit payment methods. -/
theorem form_despesa_cartao_contraexemplo :
    (form_despesa_submit (fun _ => "a") "g" 0 "Outros" "PIX" "Nubank" 10 1
        "d").map (fun rows => rows.map (·.cartao)) = some ["Nubank"] ∧
    ("PIX" : String) ≠ "Crédito" ∧ ("Nubank" : String) ≠ "" := by
  exact ⟨rfl, by decide, by decide⟩

/-- C8 amended: every record created through the submission path stores the
submitted card selection verbatim; when the payment method is Credit the
gate guarantees this stored card name is non-empty (for other methods it is
whatever was selected, not necessarily empty). -/
theorem form_despesa_cartao (ids : ℕ → String) (grupo_id : String) (data : ℤ)
    (categoria forma_pagamento cartao : String) (valor_total : ℚ)
    (num_parcelas : ℕ) (descricao : String) :
    ∀ rows, form_despesa_submit ids grupo_id data categoria forma_pagamento
        cartao valor_total num_parcelas descricao = some rows →
      ∀ r ∈ rows, r.cartao = cartao ∧
        (forma_pagamento = "Crédito" → r.cartao ≠ "") := by
  intro rows h r hr
  unfold form_despesa_submit at h
  split_ifs at h with h1 h2
  · rw [Option.some.injEq] at h
    subst h
    simp only [add_despesa, List.mem_map] at hr
    obtain ⟨i, _, rfl⟩ := hr
    constructor
    · show (if cartao = "" then "" else cartao) = cartao
      split_ifs with hc
      · exact hc.symm
      · rfl
    · intro hcred
      have hcart : cartao ≠ "" := fun e => h2 ⟨hcred, e⟩
      show (if cartao = "" then "" else cartao) ≠ ""
      rw [if_neg hcart]
      exact hcart

/-- C8 (amended) witness: a Credit submission with card `"Nubank"`. -/
theorem form_despesa_cartao_test :
    (form_despesa_submit (fun _ => "a") "g" 0 "Outros" "Crédito" "Nubank" 10 1
        "d" = some (add_despesa (fun _ => "a") "g" 0 "Outros" "Crédito"
          "Nubank" 10 1 "d") ∧
      (⟨"a", 0, "Outros", "Crédito", "Nubank", round2 ((10 : ℚ) / ((1 : ℕ) : ℚ)),
          1, 1, "g", "d - Parcela 1/1"⟩ : DespRow) ∈
        add_despesa (fun _ => "a") "g" 0 "Outros" "Crédito" "Nubank" 10 1 "d") ∧
    ((⟨"a", 0, "Outros", "Crédito", "Nubank", round2 ((10 : ℚ) / ((1 : ℕ) : ℚ)),
        1, 1, "g", "d - Parcela 1/1"⟩ : DespRow).cartao = "Nubank" ∧
      ("Crédito" = "Crédito" →
        (⟨"a", 0, "Outros", "Crédito", "Nubank",
          round2 ((10 : ℚ) / ((1 : ℕ) : ℚ)),
          1, 1, "g", "d - Parcela 1/1"⟩ : DespRow).cartao ≠ "")) :=
  ⟨⟨rfl, List.Mem.head _⟩,
    form_despesa_cartao (fun _ => "a") "g" 0 "Outros" "Crédito" "Nubank" 10 1
      "d" _ rfl _ (List.Mem.head _)⟩

/-- An observable store operation performed by `add_despesa`: one
`sheet.append_row(...)` or the final `st.cache_data.clear()`. -/
inductive Evento where
  | appendRow (r : DespRow)
  | clearCache
deriving DecidableEq

/-- The operation sequence of one `add_despesa` call (lines 105-136): the
`num_parcelas` appends in loop order, then exactly one cache invalidation
after the loop. -/
def add_despesa_trace (ids : ℕ → String) (grupo_id : String) (data : ℤ)
    (categoria forma_pagamento cartao : String) (valor_total : ℚ)
    (num_parcelas : ℕ) (descricao : String) : List Evento :=
  ((add_despesa ids grupo_id data categoria forma_pagamento cartao valor_total
      num_parcelas descricao).map Evento.appendRow) ++ [Evento.clearCache]

/-- The installment index carried by an append event. -/
def eventoParcela : Evento → Option ℕ
  | Evento.appendRow r => some r.parcela_atual
  | Evento.clearCache => none

lemma filterMap_evento_append (l : List DespRow) :
    (l.map Evento.appendRow).filterMap eventoParcela
      = l.map (·.parcela_atual) := by
  induction l with
  | nil => rfl
  | cons a t ih => simp [List.filterMap_cons, eventoParcela, ih]

/-- C10: within one `add_despesa` call the group id is generated once and
shared by every appended row; the rows are appended in strictly ascending
index order, so after any prefix of `k ≤ n` operations the appended indices
are exactly `1..k`; and the cache is invalidated exactly once, after all
`n` appends. -/
theorem add_despesa_trace_spec (ids : ℕ → String) (grupo_id : String)
    (data : ℤ) (categoria forma_pagamento cartao : String) (T : ℚ) (n : ℕ)
    (descricao : String) (k : ℕ) (hk : k ≤ n) :
    (∀ r ∈ add_despesa ids grupo_id data categoria forma_pagamento cartao T n
        descricao, r.grupo = grupo_id) ∧
    ((add_despesa_trace ids grupo_id data categoria forma_pagamento cartao T n
        descricao).take k).filterMap eventoParcela = List.range' 1 k ∧
    (add_despesa_trace ids grupo_id data categoria forma_pagamento cartao T n
        descricao).count Evento.clearCache = 1 ∧
    (add_despesa_trace ids grupo_id data categoria forma_pagamento cartao T n
        descricao).getLast? = some Evento.clearCache := by
  refine ⟨?_, ?_, ?_, ?_⟩
  · intro r hr
    simp only [add_despesa, List.mem_map] at hr
    obtain ⟨i, _, rfl⟩ := hr
    rfl
  · unfold add_despesa_trace
    rw [List.take_append_of_le_length
      (by rw [List.length_map, add_despesa_length]; exact hk)]
    rw [← List.map_take, filterMap_evento_append, List.map_take,
      add_despesa_indices]
    have h := List.range'_append 1 k (n - k) 1
    simp only [one_mul] at h
    rw [show n = n - k + k by omega, ← h]
    exact List.take_left' (List.length_range' ..)
  · unfold add_despesa_trace
    rw [List.count_append]
    have h0 : ((add_despesa ids grupo_id data categoria forma_pagamento cartao
        T n descricao).map Evento.appendRow).count Evento.clearCache = 0 := by
      rw [List.count_eq_zero]
      intro hmem
      rw [List.mem_map] at hmem
      obtain ⟨r, -, hr⟩ := hmem
      exact Evento.noConfusion hr
    rw [h0]
    rfl
  · exact List.getLast?_concat _

/-- C10 witness: a two-installment call, checked after the first append. -/
theorem add_despesa_trace_spec_test :
    1 ≤ 2 ∧
    ((∀ r ∈ add_despesa (fun _ => "a") "g" 0 "Mercado" "PIX" "" 10 2 "d",
        r.grupo = "g") ∧
    ((add_despesa_trace (fun _ => "a") "g" 0 "Mercado" "PIX" "" 10 2
        "d").take 1).filterMap eventoParcela = List.range' 1 1 ∧
    (add_despesa_trace (fun _ => "a") "g" 0 "Mercado" "PIX" "" 10 2
        "d").count Evento.clearCache = 1 ∧
    (add_despesa_trace (fun _ => "a") "g" 0 "Mercado" "PIX" "" 10 2
        "d").getLast? = some Evento.clearCache) :=
  ⟨by decide,
    add_despesa_trace_spec (fun _ => "a") "g" 0 "Mercado" "PIX" "" 10 2 "d" 1
      (by decide)⟩
